import Mathlib

/-!
Verification of the nicegui storage subsystem specification.

The repository sources at hand are `tests/test_storage.py` (the behavioural
tests of the storage subsystem) and `nicegui/elements/radio.py`.  The storage
implementation itself is not among the provided sources, so the storage data
model and operations below are modelled from the specification document
(each such definition is marked `Modelled from the spec:`); `radio.py` is
translated directly from the source.
-/

namespace NiceGui

/-- Modelled from the spec: storage values are "any serializable data
(scalars, nested mappings/sequences)", represented as a tagged value variant
(null, boolean, number, string, ordered sequence, mapping). -/
inductive Value where
  | null : Value
  | bool (b : Bool) : Value
  | num (n : Int) : Value
  | str (s : String) : Value
  | arr (elems : List Value) : Value
  | obj (fields : List (String × Value)) : Value

/-- Modelled from the spec: a storage mapping is "key → value, keys are
strings"; represented as an insertion-ordered association list. -/
abbrev SMap := List (String × Value)

/-- The empty storage mapping. -/
def SMap.empty : SMap := []

/-- Look a key up in a storage mapping. -/
def SMap.get? : SMap → String → Option Value
  | [], _ => none
  | (k', v) :: rest, k => if k' = k then some v else SMap.get? rest k

/-- Modelled from the spec: `get`-with-default — "No error on missing keys
for `get`-with-default". -/
def SMap.getD (m : SMap) (k : String) (d : Value) : Value :=
  (m.get? k).getD d

/-- Modelled from the spec: error taxonomy of the storage subsystem
(`KeyNotFound`, `StorageFrozen`, `NoActiveContext`, `ConfigurationError`). -/
inductive StorageError where
  | KeyNotFound (key : String) : StorageError
  | StorageFrozen (msg : String) : StorageError
  | NoActiveContext : StorageError
  | ConfigurationError (msg : String) : StorageError
deriving DecidableEq, Repr

/-- Modelled from the spec: "direct subscript access on a missing key fails
with `KeyNotFound`". -/
def SMap.getItem (m : SMap) (k : String) : Except StorageError Value :=
  match m.get? k with
  | some v => Except.ok v
  | none => Except.error (StorageError.KeyNotFound k)

/-- Set a key (replace in place if present, append otherwise, preserving
insertion order as Python dictionaries do). -/
def SMap.set : SMap → String → Value → SMap
  | [], k, v => [(k, v)]
  | (k', v') :: rest, k, v =>
    if k' = k then (k, v) :: rest else (k', v') :: SMap.set rest k v

/-- Containment check of the mapping contract. -/
def SMap.containsKey (m : SMap) (k : String) : Bool :=
  (m.get? k).isSome

/-- Delete a key from the mapping. -/
def SMap.erase : SMap → String → SMap
  | [], _ => []
  | (k', v') :: rest, k =>
    if k' = k then SMap.erase rest k else (k', v') :: SMap.erase rest k

/-- Apply a list of keyword assignments left to right. -/
def SMap.applyKwargs : SMap → List (String × Value) → SMap
  | m, [] => m
  | m, (k, v) :: rest => SMap.applyKwargs (m.set k v) rest

/-- Modelled from the spec: "`update(**kwargs)` accepts keyword-style bulk
assignment, returns a bound callable usable as an event-handler so it can be
attached directly as a callback without wrapping".  The bulk assignment is
applied and a callable bound to the updated mapping is returned. -/
def SMap.update (m : SMap) (kwargs : List (String × Value)) :
    SMap × (Unit → SMap) :=
  let applied := m.applyKwargs kwargs
  (applied, fun _ => applied)

/-- Modelled from the spec: the Observable Mapping — a mutable mapping wrapper
with a per-mapping dirty flag, "set by any mutating operation, cleared
atomically by a successful flush". -/
structure PersistentDict where
  data : SMap
  dirty : Bool

/-- A freshly loaded, clean persistent mapping. -/
def PersistentDict.ofData (m : SMap) : PersistentDict :=
  { data := m, dirty := false }

/-- Item assignment on an observable mapping: applies the change and sets the
dirty flag. -/
def PersistentDict.setItem (pd : PersistentDict) (k : String) (v : Value) :
    PersistentDict :=
  { data := pd.data.set k v, dirty := true }

/-- Modelled from the spec: the mutating operations of the mapping contract
(item assignment, deletion, keyword-style bulk update). -/
inductive MutOp where
  | setKey (k : String) (v : Value) : MutOp
  | delKey (k : String) : MutOp
  | bulkUpdate (kwargs : List (String × Value)) : MutOp

/-- Apply one mutating operation to an observable mapping, setting the dirty
flag. -/
def PersistentDict.applyOp (pd : PersistentDict) : MutOp → PersistentDict
  | MutOp.setKey k v => { data := pd.data.set k v, dirty := true }
  | MutOp.delKey k => { data := pd.data.erase k, dirty := true }
  | MutOp.bulkUpdate kwargs =>
    { data := (pd.data.update kwargs).1, dirty := true }

/-- Apply a sequence of mutating operations in issuance order. -/
def PersistentDict.applyOps (pd : PersistentDict) : List MutOp → PersistentDict
  | [] => pd
  | op :: rest => (pd.applyOp op).applyOps rest

/-- Modelled from the spec: the Persistence Backend is a "durable key-value
byte-blob store keyed by a storage-scope identifier"; represented as an
association from scope keys to saved snapshots. -/
abbrev Backend := List (String × SMap)

/-- Modelled from the spec: "`load(scope_key)` returns the last saved snapshot
or an empty mapping if none exists". -/
def Backend.load : Backend → String → SMap
  | [], _ => SMap.empty
  | (key', snap) :: rest, key =>
    if key' = key then snap else Backend.load rest key

/-- Modelled from the spec: "`save(scope_key, mapping_snapshot)` durably
writes a full replacement of the record identified by `scope_key`". -/
def Backend.save : Backend → String → SMap → Backend
  | [], key, snap => [(key, snap)]
  | (key', snap') :: rest, key, snap =>
    if key' = key then (key, snap) :: rest
    else (key', snap') :: Backend.save rest key snap

/-- Modelled from the spec: a flush "captures a consistent full snapshot of
the mapping at flush time", writes it to the backend, and clears the dirty
flag after the successful write. -/
def flushDict (pd : PersistentDict) (b : Backend) (scopeKey : String) :
    PersistentDict × Backend :=
  ({ pd with dirty := false }, b.save scopeKey pd.data)

/-! ### Browser-Scope Adapter -/

/-- Modelled from the spec: whether a mutation originates "synchronously in
the handler or asynchronously in a task spawned from it". -/
inductive Origin where
  | handler : Origin
  | spawnedTask : Origin

/-- Modelled from the spec: the Browser-Scope Adapter mapping together with
the Ambient Request Context flag recording "whether response headers have
already been finalized". -/
structure BrowserState where
  data : SMap
  responseBuilt : Bool

/-- The message carried by `StorageFrozen`, indicating that the response has
already been built (the test looks for the phrase "response to the browser
has already been built"). -/
def responseBuiltMsg : String :=
  "storage.browser can only be modified while the request is being " ++
  "processed, but the response to the browser has already been built"

/-- Modelled from the spec: "once response headers have been finalized for
the current request, any further mutation attempt fails with `StorageFrozen`,
carrying a message indicating the response has already been built". -/
def BrowserState.setItem (st : BrowserState) (k : String) (v : Value) :
    Except StorageError BrowserState :=
  if st.responseBuilt then
    Except.error (StorageError.StorageFrozen responseBuiltMsg)
  else
    Except.ok { st with data := st.data.set k v }

/-- Events of one request's browser-storage history: mutation attempts (from
either call path) and the finalization of the response headers. -/
inductive BrowserEvent where
  | mutate (origin : Origin) (k : String) (v : Value) : BrowserEvent
  | finalizeResponse : BrowserEvent

/-- One step of the browser-storage history. -/
def browserStep (st : BrowserState) :
    BrowserEvent → Except StorageError BrowserState
  | BrowserEvent.mutate _ k v => st.setItem k v
  | BrowserEvent.finalizeResponse =>
    Except.ok { st with responseBuilt := true }

/-- Run a browser-storage history, stopping at the first error. -/
def browserRun (st : BrowserState) :
    List BrowserEvent → Except StorageError BrowserState
  | [] => Except.ok st
  | e :: rest =>
    match browserStep st e with
    | Except.ok st' => browserRun st' rest
    | Except.error err => Except.error err

/-- Whether an event is the response finalization. -/
def BrowserEvent.isFinalize : BrowserEvent → Bool
  | BrowserEvent.finalizeResponse => true
  | _ => false

/-! ### Session Resolver and Scope Registry -/

/-- Modelled from the spec: the Scope Registry — process-wide state holding
the general mapping, the session-identifier → user-mapping association, and
the mint counter for fresh identifiers. -/
structure Registry where
  nextId : Nat
  sessions : List (Nat × SMap)
  general : SMap

/-- The registry at application startup (no sessions, empty general
mapping). -/
def Registry.startup : Registry :=
  { nextId := 0, sessions := [], general := SMap.empty }

/-- Modelled from the spec: the inbound request credential — a signed cookie
that is absent, fails verification, or validly decodes to an identifier. -/
inductive Cookie where
  | missing : Cookie
  | invalidSignature : Cookie
  | valid (sid : Nat) : Cookie

/-- Modelled from the spec: the Session Resolver — "verify the signed cookie;
if valid, return the decoded identifier; if absent or verification fails,
mint a new random identifier ... and return it". -/
def resolveSession (reg : Registry) (c : Cookie) : Nat × Registry :=
  match c with
  | Cookie.valid sid => (sid, reg)
  | Cookie.missing => (reg.nextId, { reg with nextId := reg.nextId + 1 })
  | Cookie.invalidSignature =>
    (reg.nextId, { reg with nextId := reg.nextId + 1 })

/-- Look a session identifier up in the registry's session table. -/
def sessionsGet? : List (Nat × SMap) → Nat → Option SMap
  | [], _ => none
  | (sid', m) :: rest, sid =>
    if sid' = sid then some m else sessionsGet? rest sid

/-- Replace (or lazily create) the user mapping of a session identifier. -/
def sessionsSet : List (Nat × SMap) → Nat → SMap → List (Nat × SMap)
  | [], sid, m => [(sid, m)]
  | (sid', m') :: rest, sid, m =>
    if sid' = sid then (sid, m) :: rest
    else (sid', m') :: sessionsSet rest sid m

/-- Modelled from the spec: the user-scope mapping of a session, "populated
lazily on first access per session ..., else empty". -/
def Registry.userMapOf (reg : Registry) (sid : Nat) : SMap :=
  (sessionsGet? reg.sessions sid).getD SMap.empty

/-- Write one key of a session's user-scope mapping. -/
def Registry.setUser (reg : Registry) (sid : Nat) (k : String) (v : Value) :
    Registry :=
  { reg with sessions := sessionsSet reg.sessions sid ((reg.userMapOf sid).set k v) }

/-- Write one key of the shared general-scope mapping. -/
def Registry.setGeneral (reg : Registry) (k : String) (v : Value) : Registry :=
  { reg with general := reg.general.set k v }

/-- The counter-increment idiom of the tests:
`storage[k] = storage.get(k, 0) + 1` (fails if the stored value is not a
number). -/
def SMap.incKey (m : SMap) (k : String) : Option SMap :=
  match m.getD k (Value.num 0) with
  | Value.num n => some (m.set k (Value.num (n + 1)))
  | _ => none

/-- Increment the "count" key of a session's user mapping. -/
def Registry.incUser (reg : Registry) (sid : Nat) : Option Registry :=
  match (reg.userMapOf sid).incKey "count" with
  | some m => some { reg with sessions := sessionsSet reg.sessions sid m }
  | none => none

/-- Increment the "count" key of the general mapping. -/
def Registry.incGeneral (reg : Registry) : Option Registry :=
  match reg.general.incKey "count" with
  | some g => some { reg with general := g }
  | none => none

/-- The page handler of `test_user_and_general_storage_is_persisted`: resolve
the session from the cookie, then increment the user-scope and general-scope
counters. -/
def pageVisit (reg : Registry) (c : Cookie) : Option (Nat × Registry) :=
  let (sid, reg1) := resolveSession reg c
  match reg1.incUser sid with
  | some reg2 =>
    match reg2.incGeneral with
    | some reg3 => some (sid, reg3)
    | none => none
  | none => none

/-! ### Ambient Request Context and background tasks -/

/-- Modelled from the spec: the Ambient Request Context, "a thread/task-local
association between the executing call and ... the active user mapping",
created at request start. -/
structure RequestContext where
  sessionId : Nat

/-- Modelled from the spec: "the background-task spawning mechanism must
propagate the ambient context to spawned tasks" — a spawned task captures the
spawning request's context. -/
structure BackgroundTask where
  capturedContext : RequestContext

/-- Spawn a background task from within a request, inheriting the ambient
context. -/
def spawnTask (ctx : RequestContext) : BackgroundTask :=
  { capturedContext := ctx }

/-- A background task writing the user mapping resolves it through its
captured context (even after the spawning request's response completed). -/
def runTaskWrite (t : BackgroundTask) (reg : Registry) (k : String)
    (v : Value) : Registry :=
  reg.setUser t.capturedContext.sessionId k v

/-- The scope key (and durable file name) of a session's user record:
`storage_user_<session-identifier>.json` under the `.nicegui` directory. -/
def userScopeKey (sid : Nat) : String :=
  "storage_user_" ++ toString sid ++ ".json"

/-- Flush one session's user mapping to its durable record. -/
def Registry.flushUser (reg : Registry) (b : Backend) (sid : Nat) : Backend :=
  b.save (userScopeKey sid) (reg.userMapOf sid)

/-- The `/api` endpoint of `test_access_user_storage_from_fastapi`: resolves
the session identifier from the request's own cookie and sets
`user['msg'] = 'yes'`. -/
def apiEndpoint (reg : Registry) (c : Cookie) : Nat × Registry :=
  let (sid, reg1) := resolveSession reg c
  (sid, reg1.setUser sid "msg" (Value.str "yes"))

/-! ### Configuration -/

/-- Modelled from the spec: the startup configuration, holding "a secret
string required to sign/verify browser and session cookies". -/
structure AppConfig where
  storageSecret : Option String

/-- The three storage scopes. -/
inductive StorageScope where
  | browser : StorageScope
  | user : StorageScope
  | general : StorageScope

/-- The message carried by the configuration error for a missing secret. -/
def missingSecretMsg : String :=
  "storage_secret is required for browser-based or user-based storage"

/-- Modelled from the spec: "Requires a configured secret; fails fast at
startup with a configuration error if no secret is provided and any
user/browser storage feature is used." -/
def touchStorage (cfg : AppConfig) (scope : StorageScope) :
    Except StorageError Unit :=
  match scope with
  | StorageScope.general => Except.ok ()
  | StorageScope.browser =>
    match cfg.storageSecret with
    | none => Except.error (StorageError.ConfigurationError missingSecretMsg)
    | some _ => Except.ok ()
  | StorageScope.user =>
    match cfg.storageSecret with
    | none => Except.error (StorageError.ConfigurationError missingSecretMsg)
    | some _ => Except.ok ()

/-! ### Interleaved sessions (write scheduler view) -/

/-- One session's user mapping together with the durable backend it is
flushed to. -/
structure UserSession where
  mapping : PersistentDict
  backend : Backend

/-- Events of interleaved requests against one session: an atomic counter
increment (`user['count'] = user.get('count', 0) + 1`, which runs without a
suspension point) or a serialized full-snapshot flush. -/
inductive UserEvent where
  | increment : UserEvent
  | flush : UserEvent

/-- Increment the "count" key of an observable mapping, as each interleaved
request does. -/
def incrementCount (pd : PersistentDict) : Option PersistentDict :=
  match pd.data.getD "count" (Value.num 0) with
  | Value.num n => some (pd.setItem "count" (Value.num (n + 1)))
  | _ => none

/-- Run an interleaving of increments and flushes against one session. -/
def runUserEvents (scopeKey : String) :
    UserSession → List UserEvent → Option UserSession
  | s, [] => some s
  | s, UserEvent.increment :: rest =>
    match incrementCount s.mapping with
    | some pd => runUserEvents scopeKey { s with mapping := pd } rest
    | none => none
  | s, UserEvent.flush :: rest =>
    let fb := flushDict s.mapping s.backend scopeKey
    runUserEvents scopeKey { mapping := fb.1, backend := fb.2 } rest

/-- The number of increment events in an interleaving. -/
def countIncrements : List UserEvent → Nat
  | [] => 0
  | UserEvent.increment :: rest => countIncrements rest + 1
  | UserEvent.flush :: rest => countIncrements rest

/-! ### Durable record layout (JSON serialization) -/

/-- One lower-case hexadecimal digit. -/
def hexDigitChar (n : Nat) : String :=
  String.mk [if n < 10 then Char.ofNat (48 + n) else Char.ofNat (87 + n)]

/-- JSON escaping of one character, following the encoder used for the
durable records (quote, backslash and control characters are escaped;
everything else is emitted verbatim). -/
def jsonEscapeChar (c : Char) : String :=
  if c = '"' then "\\\""
  else if c = '\\' then "\\\\"
  else if c.toNat < 32 then
    if c = '\n' then "\\n"
    else if c = '\t' then "\\t"
    else if c = '\r' then "\\r"
    else "\\u00" ++ hexDigitChar (c.toNat / 16) ++ hexDigitChar (c.toNat % 16)
  else String.mk [c]

/-- JSON escaping of a character list. -/
def jsonEscapeList : List Char → String
  | [] => ""
  | c :: rest => jsonEscapeChar c ++ jsonEscapeList rest

/-- JSON escaping of a string. -/
def jsonEscape (s : String) : String :=
  jsonEscapeList s.data

/-- A JSON string literal. -/
def jsonOfString (s : String) : String :=
  "\"" ++ jsonEscape s ++ "\""

mutual

/-- Modelled from the spec: the durable record is "a complete serialized
mapping (e.g., textual structured encoding)"; the tests pin the encoding to
JSON with ", " and ": " separators (the record text is exactly
`\x7b"msg": "yes"\x7d`). -/
def jsonOfValue : Value → String
  | Value.null => "null"
  | Value.bool b => if b then "true" else "false"
  | Value.num n => toString n
  | Value.str s => jsonOfString s
  | Value.arr elems => "[" ++ jsonOfElems elems ++ "]"
  | Value.obj fields => "\x7b" ++ jsonOfFields fields ++ "\x7d"

/-- Serialize the elements of a JSON array, separated by ", ". -/
def jsonOfElems : List Value → String
  | [] => ""
  | [v] => jsonOfValue v
  | v :: rest => jsonOfValue v ++ ", " ++ jsonOfElems rest

/-- Serialize the fields of a JSON object, separated by ", " with ": "
between key and value. -/
def jsonOfFields : List (String × Value) → String
  | [] => ""
  | [(k, v)] => jsonOfString k ++ ": " ++ jsonOfValue v
  | (k, v) :: rest =>
    jsonOfString k ++ ": " ++ jsonOfValue v ++ ", " ++ jsonOfFields rest

end

/-- The text of a durable record: the JSON serialization of the full
mapping. -/
def jsonSerialize (m : SMap) : String :=
  jsonOfValue (Value.obj m)

/-- The `.nicegui` directory as a store from file names to file texts. -/
abbrev FileStore := List (String × String)

/-- Look a file up in the store. -/
def FileStore.read? : FileStore → String → Option String
  | [], _ => none
  | (name', text) :: rest, name =>
    if name' = name then some text else FileStore.read? rest name

/-- Atomically replace a file's content. -/
def FileStore.write : FileStore → String → String → FileStore
  | [], name, text => [(name, text)]
  | (name', text') :: rest, name, text =>
    if name' = name then (name, text) :: rest
    else (name', text') :: FileStore.write rest name text

/-- Flush one session's user mapping to its durable file
`storage_user_<session-identifier>.json`. -/
def flushUserToFile (fs : FileStore) (sid : Nat) (m : SMap) : FileStore :=
  fs.write (userScopeKey sid) (jsonSerialize m)

/-- A character that the JSON encoder emits verbatim (not a quote, not a
backslash, not a control character). -/
def jsonPlainChar (c : Char) : Bool :=
  c ≠ '"' && c ≠ '\\' && 32 ≤ c.toNat

/-! ### Radio element (translated from `nicegui/elements/radio.py`) -/

/-- The Radio element: a `ChoiceElement` whose `_values` list holds the
options' values in order (for dictionary options, the keys). -/
structure Radio (α : Type) where
  values : List α

/-- `Radio._msg_to_value`: `return self._values[msg['args']]` (indexing can
fail out of bounds). -/
def Radio.msg_to_value (r : Radio α) (args : Nat) : Option α :=
  r.values.get? args

/-- `Radio._value_to_model_value`:
`return self._values.index(value) if value in self._values else None`. -/
def Radio.value_to_model_value [DecidableEq α] (r : Radio α) (value : α) :
    Option Nat :=
  if value ∈ r.values then some (r.values.indexOf value) else none

/-- The scenario of `test_user_and_general_storage_is_persisted`: three page
loads by one visitor (the first mints the cookie), then all cookies are
cleared and the page is loaded once more.  Returns, for the state after the
third load and for the state after the post-clearing load, the session
identifier and the user-scope and general-scope counters. -/
def clearedCookieScenario :
    Option ((Nat × Value × Value) × (Nat × Value × Value)) :=
  match pageVisit Registry.startup Cookie.missing with
  | some (sid, r1) =>
    match pageVisit r1 (Cookie.valid sid) with
    | some (_, r2) =>
      match pageVisit r2 (Cookie.valid sid) with
      | some (_, r3) =>
        match pageVisit r3 Cookie.missing with
        | some (sid', r4) =>
          some ((sid, ((r3.userMapOf sid).getD "count" Value.null,
                  r3.general.getD "count" Value.null)),
                (sid', ((r4.userMapOf sid').getD "count" Value.null,
                  r4.general.getD "count" Value.null)))
        | none => none
      | none => none
    | none => none
  | none => none

/-! ## Helper lemmas -/

theorem SMap.get?_set_self (m : SMap) (k : String) (v : Value) :
    (m.set k v).get? k = some v := by
  induction m with
  | nil => simp [SMap.set, SMap.get?]
  | cons p rest ih =>
    obtain ⟨k', v'⟩ := p
    by_cases h : k' = k
    · simp [SMap.set, SMap.get?, h]
    · simp [SMap.set, SMap.get?, h, ih]

theorem SMap.get?_set_ne (m : SMap) (k k2 : String) (v : Value)
    (h : k ≠ k2) : (m.set k v).get? k2 = m.get? k2 := by
  induction m with
  | nil => simp [SMap.set, SMap.get?, h]
  | cons p rest ih =>
    obtain ⟨k', v'⟩ := p
    by_cases h' : k' = k
    · subst h'
      simp [SMap.set, SMap.get?, h]
    · simp only [SMap.set, if_neg h', SMap.get?]
      by_cases h2 : k' = k2
      · simp [h2]
      · simp [h2, ih]

theorem SMap.get?_applyKwargs_of_not_mem (kwargs : List (String × Value))
    (m : SMap) (k : String) (h : k ∉ kwargs.map Prod.fst) :
    (m.applyKwargs kwargs).get? k = m.get? k := by
  induction kwargs generalizing m with
  | nil => rfl
  | cons p rest ih =>
    obtain ⟨k0, v0⟩ := p
    simp only [List.map_cons, List.mem_cons, not_or] at h
    rw [SMap.applyKwargs, ih (m.set k0 v0) h.2,
      SMap.get?_set_ne m k0 k v0 (fun he => h.1 he.symm)]

theorem Backend.load_save_self (b : Backend) (key : String) (snap : SMap) :
    (b.save key snap).load key = snap := by
  induction b with
  | nil => simp [Backend.save, Backend.load]
  | cons p rest ih =>
    obtain ⟨key', snap'⟩ := p
    by_cases h : key' = key
    · simp [Backend.save, Backend.load, h]
    · simp [Backend.save, Backend.load, h, ih]

theorem Backend.load_of_not_mem (b : Backend) (key : String)
    (h : key ∉ b.map Prod.fst) : b.load key = SMap.empty := by
  induction b with
  | nil => rfl
  | cons p rest ih =>
    obtain ⟨key', snap'⟩ := p
    simp only [List.map_cons, List.mem_cons, not_or] at h
    rw [Backend.load, if_neg (fun he => h.1 he.symm)]
    exact ih h.2

theorem SMap.get?_applyKwargs_mem (kwargs : List (String × Value)) :
    ∀ (m : SMap) (kv : String × Value),
      (kwargs.map Prod.fst).Nodup → kv ∈ kwargs →
      (m.applyKwargs kwargs).get? kv.1 = some kv.2 := by
  induction kwargs with
  | nil =>
    intro m kv _ hmem
    cases hmem
  | cons p rest ih =>
    intro m kv hnodup hmem
    obtain ⟨k0, v0⟩ := p
    simp only [List.map_cons, List.nodup_cons] at hnodup
    rw [SMap.applyKwargs]
    rcases List.mem_cons.mp hmem with heq | hmem
    · subst heq
      show (SMap.applyKwargs (m.set k0 v0) rest).get? k0 = some v0
      rw [SMap.get?_applyKwargs_of_not_mem rest (m.set k0 v0) k0 hnodup.1]
      exact SMap.get?_set_self m k0 v0
    · exact ih (m.set k0 v0) kv hnodup.2 hmem

/-! ## Claim theorems -/

/-- C6: if the key is absent, `get(key, default)` returns the default without
raising, while direct subscript access fails with `KeyNotFound`; if the key
is present, both return the stored value. -/
theorem get_default_and_subscript (m : SMap) (k : String) (d : Value) :
    (m.get? k = none →
      m.getD k d = d
      ∧ m.getItem k = Except.error (StorageError.KeyNotFound k))
    ∧ ∀ v, m.get? k = some v → m.getD k d = v ∧ m.getItem k = Except.ok v := by
  constructor
  · intro h
    rw [SMap.getD, SMap.getItem, h]
    exact ⟨rfl, rfl⟩
  · intro v h
    rw [SMap.getD, SMap.getItem, h]
    exact ⟨rfl, rfl⟩

/-- Witness for C6 at a concrete mapping: key "a" is present, key "b" is
absent. -/
theorem get_default_and_subscript_witness :
    (SMap.getD [("a", Value.num 1)] "b" Value.null = Value.null
     ∧ SMap.getItem [("a", Value.num 1)] "b"
        = Except.error (StorageError.KeyNotFound "b"))
    ∧ (SMap.getD [("a", Value.num 1)] "a" Value.null = Value.num 1
       ∧ SMap.getItem [("a", Value.num 1)] "a" = Except.ok (Value.num 1)) :=
  ⟨(get_default_and_subscript [("a", Value.num 1)] "b" Value.null).1 rfl,
   (get_default_and_subscript [("a", Value.num 1)] "a" Value.null).2
     (Value.num 1) rfl⟩

/-- C5: `update(**kwargs)` applies the keyword-style bulk assignment and
returns a callable bound to the updated mapping (attachable as an
event-handler callback); the mapping afterwards contains every given
key-value pair.  Keyword arguments have pairwise distinct keys, as Python
enforces syntactically. -/
theorem update_applies_kwargs (m : SMap) (kwargs : List (String × Value))
    (hnodup : (kwargs.map Prod.fst).Nodup) :
    (∀ kv ∈ kwargs, ((m.update kwargs).1).get? kv.1 = some kv.2)
    ∧ (m.update kwargs).2 () = (m.update kwargs).1 := by
  refine ⟨?_, rfl⟩
  intro kv hmem
  exact SMap.get?_applyKwargs_mem kwargs m kv hnodup hmem

/-- Witness for C5 at concrete keyword arguments. -/
theorem update_applies_kwargs_witness :
    (SMap.update [] [("inner_function", Value.str "works")]).1.get?
      "inner_function" = some (Value.str "works")
    ∧ (SMap.update [] [("inner_function", Value.str "works")]).2 ()
      = (SMap.update [] [("inner_function", Value.str "works")]).1 := by
  have h := update_applies_kwargs []
    [("inner_function", Value.str "works")] (by simp)
  exact ⟨h.1 ("inner_function", Value.str "works") (List.mem_singleton.mpr rfl),
    h.2⟩

/-- C7: with no signing secret configured, first use of the browser-scope or
user-scope storage features fails with a configuration error; with a secret
configured, no such error occurs for any scope. -/
theorem missing_secret_fails_fast (cfg : AppConfig) (s : String) :
    (cfg.storageSecret = none →
      touchStorage cfg StorageScope.browser
        = Except.error (StorageError.ConfigurationError missingSecretMsg)
      ∧ touchStorage cfg StorageScope.user
        = Except.error (StorageError.ConfigurationError missingSecretMsg))
    ∧ (cfg.storageSecret = some s →
      ∀ scope, touchStorage cfg scope = Except.ok ()) := by
  constructor
  · intro h
    constructor <;> simp [touchStorage, h]
  · intro h scope
    cases scope <;> simp [touchStorage, h]

/-- Witness for C7: missing secret errors, configured secret succeeds. -/
theorem missing_secret_fails_fast_witness :
    (touchStorage { storageSecret := none } StorageScope.user
      = Except.error (StorageError.ConfigurationError missingSecretMsg))
    ∧ touchStorage { storageSecret := some "just a test" } StorageScope.browser
      = Except.ok () :=
  ⟨((missing_secret_fails_fast { storageSecret := none } "x").1 rfl).2,
   (missing_secret_fails_fast { storageSecret := some "just a test" }
     "just a test").2 rfl StorageScope.browser⟩

/-- C2: after any sequence of mutations followed by a flush, a fresh load of
the same scope key returns exactly the in-memory state at flush time (and the
flush clears the dirty flag); loading a scope key that was never saved
returns the empty mapping. -/
theorem durability_round_trip (ops : List MutOp) (pd0 : PersistentDict)
    (b : Backend) (scopeKey : String) (neverKey : String) (b2 : Backend)
    (hnever : neverKey ∉ b2.map Prod.fst) :
    Backend.load (flushDict (pd0.applyOps ops) b scopeKey).2 scopeKey
      = (pd0.applyOps ops).data
    ∧ (flushDict (pd0.applyOps ops) b scopeKey).1.dirty = false
    ∧ Backend.load b2 neverKey = SMap.empty :=
  ⟨Backend.load_save_self b scopeKey (pd0.applyOps ops).data, rfl,
   Backend.load_of_not_mem b2 neverKey hnever⟩

/-- Witness for C2 at a concrete mutation sequence and backend. -/
theorem durability_round_trip_witness :
    Backend.load
      (flushDict
        ((PersistentDict.ofData SMap.empty).applyOps
          [MutOp.setKey "msg" (Value.str "yes")])
        [] "storage_user_1.json").2 "storage_user_1.json"
      = [("msg", Value.str "yes")]
    ∧ Backend.load [("other", [("a", Value.num 1)])] "storage_user_1.json"
      = SMap.empty := by
  have h := durability_round_trip [MutOp.setKey "msg" (Value.str "yes")]
    (PersistentDict.ofData SMap.empty) [] "storage_user_1.json"
    "storage_user_1.json" [("other", [("a", Value.num 1)])] (by simp)
  exact ⟨h.1, h.2.2⟩

theorem browserRun_append (st : BrowserState) (xs ys : List BrowserEvent) :
    browserRun st (xs ++ ys)
      = match browserRun st xs with
        | Except.ok st' => browserRun st' ys
        | Except.error err => Except.error err := by
  induction xs generalizing st with
  | nil => rfl
  | cons e rest ih =>
    rw [List.cons_append, browserRun, browserRun]
    cases browserStep st e with
    | ok st' => exact ih st'
    | error err => rfl

theorem browserRun_frozen_mutate (mid : List BrowserEvent) :
    ∀ (st : BrowserState), st.responseBuilt = true →
    ∀ (o : Origin) (k : String) (v : Value) (rest : List BrowserEvent),
      browserRun st (mid ++ BrowserEvent.mutate o k v :: rest)
        = Except.error (StorageError.StorageFrozen responseBuiltMsg) := by
  induction mid with
  | nil =>
    intro st h o k v rest
    simp [browserRun, browserStep, BrowserState.setItem, h]
  | cons e mid' ih =>
    intro st h o k v rest
    rw [List.cons_append, browserRun]
    cases e with
    | mutate o2 k2 v2 =>
      simp [browserStep, BrowserState.setItem, h]
    | finalizeResponse =>
      simp only [browserStep]
      exact ih { st with responseBuilt := true } rfl o k v rest

theorem browserRun_no_finalize (pre : List BrowserEvent) :
    ∀ (st : BrowserState), st.responseBuilt = false →
      BrowserEvent.finalizeResponse ∉ pre →
      ∃ st', browserRun st pre = Except.ok st'
        ∧ st'.responseBuilt = false := by
  induction pre with
  | nil =>
    intro st h _
    exact ⟨st, rfl, h⟩
  | cons e rest ih =>
    intro st h hpre
    cases e with
    | mutate o k v =>
      rw [browserRun]
      have hstep : browserStep st (BrowserEvent.mutate o k v)
          = Except.ok { st with data := st.data.set k v } := by
        simp [browserStep, BrowserState.setItem, h]
      rw [hstep]
      exact ih { st with data := st.data.set k v } h
        (fun hm => hpre (List.mem_cons_of_mem _ hm))
    | finalizeResponse =>
      exact absurd (List.mem_cons_self _ _) hpre

/-- C1: in any browser-storage history of a request that finalizes its
response, every later mutation attempt — whether it originates in the handler
or in a spawned task — fails with `StorageFrozen` carrying the message that
the response has already been built. -/
theorem browser_mutation_after_response_frozen (init : BrowserState)
    (hinit : init.responseBuilt = false)
    (pre mid rest : List BrowserEvent) (o : Origin) (k : String) (v : Value)
    (hpre : BrowserEvent.finalizeResponse ∉ pre) :
    browserRun init
      (pre ++ BrowserEvent.finalizeResponse
        :: (mid ++ BrowserEvent.mutate o k v :: rest))
      = Except.error (StorageError.StorageFrozen responseBuiltMsg) := by
  obtain ⟨st1, hrun, hb⟩ := browserRun_no_finalize pre init hinit hpre
  rw [browserRun_append, hrun]
  show browserRun st1 (BrowserEvent.finalizeResponse
    :: (mid ++ BrowserEvent.mutate o k v :: rest)) = _
  rw [browserRun]
  simp only [browserStep]
  exact browserRun_frozen_mutate mid { st1 with responseBuilt := true } rfl
    o k v rest

/-- Witness for C1: a concrete history in which the page handler awaits the
client connection (so the response is built) and a spawned-task mutation is
then attempted. -/
theorem browser_mutation_after_response_frozen_witness :
    (BrowserEvent.finalizeResponse
      ∉ [BrowserEvent.mutate Origin.handler "count" (Value.num 1)])
    ∧ browserRun { data := SMap.empty, responseBuilt := false }
        ([BrowserEvent.mutate Origin.handler "count" (Value.num 1)]
          ++ BrowserEvent.finalizeResponse
          :: ([] ++ BrowserEvent.mutate Origin.spawnedTask "test"
                (Value.str "data") :: []))
      = Except.error (StorageError.StorageFrozen responseBuiltMsg) := by
  have hpre : BrowserEvent.finalizeResponse
      ∉ [BrowserEvent.mutate Origin.handler "count" (Value.num 1)] := by
    intro hm
    rcases List.mem_singleton.mp hm with h
    exact BrowserEvent.noConfusion h
  exact ⟨hpre,
    browser_mutation_after_response_frozen
      { data := SMap.empty, responseBuilt := false } rfl
      [BrowserEvent.mutate Origin.handler "count" (Value.num 1)] [] []
      Origin.spawnedTask "test" (Value.str "data") hpre⟩

theorem sessionsGet?_set_self (ss : List (Nat × SMap)) (sid : Nat)
    (m : SMap) : sessionsGet? (sessionsSet ss sid m) sid = some m := by
  induction ss with
  | nil => simp [sessionsSet, sessionsGet?]
  | cons p rest ih =>
    obtain ⟨sid', m'⟩ := p
    by_cases h : sid' = sid
    · simp [sessionsSet, sessionsGet?, h]
    · simp [sessionsSet, sessionsGet?, h, ih]

theorem sessionsGet?_set_ne (ss : List (Nat × SMap)) (sid sid2 : Nat)
    (m : SMap) (h : sid ≠ sid2) :
    sessionsGet? (sessionsSet ss sid m) sid2 = sessionsGet? ss sid2 := by
  induction ss with
  | nil => simp [sessionsSet, sessionsGet?, h]
  | cons p rest ih =>
    obtain ⟨sid', m'⟩ := p
    by_cases h' : sid' = sid
    · subst h'
      simp [sessionsSet, sessionsGet?, h]
    · simp only [sessionsSet, if_neg h', sessionsGet?]
      by_cases h2 : sid' = sid2
      · simp [h2]
      · simp [h2, ih]

theorem sessionsGet?_of_not_mem (ss : List (Nat × SMap)) (sid : Nat)
    (h : ∀ p ∈ ss, p.1 ≠ sid) : sessionsGet? ss sid = none := by
  induction ss with
  | nil => rfl
  | cons p rest ih =>
    obtain ⟨sid', m'⟩ := p
    rw [sessionsGet?, if_neg (h (sid', m') (List.mem_cons_self _ _))]
    exact ih (fun q hq => h q (List.mem_cons_of_mem _ hq))

theorem Registry.userMapOf_setUser_self (reg : Registry) (sid : Nat)
    (k : String) (v : Value) :
    (reg.setUser sid k v).userMapOf sid = (reg.userMapOf sid).set k v := by
  show (sessionsGet? (sessionsSet reg.sessions sid
    ((reg.userMapOf sid).set k v)) sid).getD SMap.empty = _
  rw [sessionsGet?_set_self]
  rfl

theorem Registry.userMapOf_setUser_ne (reg : Registry) (sid sid2 : Nat)
    (k : String) (v : Value) (h : sid ≠ sid2) :
    (reg.setUser sid k v).userMapOf sid2 = reg.userMapOf sid2 := by
  show (sessionsGet? (sessionsSet reg.sessions sid
    ((reg.userMapOf sid).set k v)) sid2).getD SMap.empty = _
  rw [sessionsGet?_set_ne _ _ _ _ h]
  rfl

/-- C3: distinct session identifiers resolve to distinct user-scope mappings
whose mutations never become visible to each other, while the general-scope
mapping is one shared instance; a fresh identifier minted after cookie
invalidation starts with an empty user mapping (its counter restarts at 1)
while the general mapping retains its prior state (its counter keeps
incrementing, 3 → 4 in the cookie-clearing scenario). -/
theorem user_mappings_session_scoped (reg reg2 : Registry) (sid1 sid2 : Nat)
    (k : String) (v : Value) (hne : sid1 ≠ sid2)
    (hinv : ∀ p ∈ reg2.sessions, p.1 < reg2.nextId) :
    ((reg.setUser sid1 k v).userMapOf sid1).get? k = some v
    ∧ (reg.setUser sid1 k v).userMapOf sid2 = reg.userMapOf sid2
    ∧ (reg.setUser sid1 k v).general = reg.general
    ∧ (reg.setGeneral k v).userMapOf sid1 = reg.userMapOf sid1
    ∧ (reg.setGeneral k v).general = reg.general.set k v
    ∧ (resolveSession reg2 Cookie.missing).2.userMapOf
        (resolveSession reg2 Cookie.missing).1 = SMap.empty
    ∧ clearedCookieScenario
      = some ((0, (Value.num 3, Value.num 3)),
              (1, (Value.num 1, Value.num 4))) := by
  refine ⟨?_, Registry.userMapOf_setUser_ne reg sid1 sid2 k v hne,
    rfl, rfl, rfl, ?_, rfl⟩
  · rw [Registry.userMapOf_setUser_self]
    exact SMap.get?_set_self _ k v
  · show (sessionsGet? reg2.sessions reg2.nextId).getD SMap.empty = SMap.empty
    rw [sessionsGet?_of_not_mem reg2.sessions reg2.nextId
      (fun p hp => Nat.ne_of_lt (hinv p hp))]
    rfl

/-- Witness for C3 at concrete registries and session identifiers. -/
theorem user_mappings_session_scoped_witness :
    ((Registry.startup.setUser 0 "count" (Value.num 1)).userMapOf 0).get?
      "count" = some (Value.num 1)
    ∧ (Registry.startup.setUser 0 "count" (Value.num 1)).userMapOf 1
      = Registry.startup.userMapOf 1
    ∧ clearedCookieScenario
      = some ((0, (Value.num 3, Value.num 3)),
              (1, (Value.num 1, Value.num 4))) := by
  have h := user_mappings_session_scoped Registry.startup Registry.startup
    0 1 "count" (Value.num 1) (by decide) (by intro p hp; cases hp)
  exact ⟨h.1, h.2.1, h.2.2.2.2.2.2⟩

/-- C4: the ambient request context bound at request start is inherited by
tasks spawned during the request, so a background task writing the user
mapping after the response completed resolves exactly the user-scope mapping
of the spawning request; an HTTP endpoint outside any page handler resolves
the user mapping from its own request's cookie, and its write is flushed to
that session's durable record. -/
theorem ambient_context_inherited_by_tasks (ctx : RequestContext)
    (reg : Registry) (k : String) (v : Value) (sid : Nat) (b : Backend)
    (hempty : reg.userMapOf sid = SMap.empty) :
    runTaskWrite (spawnTask ctx) reg k v = reg.setUser ctx.sessionId k v
    ∧ ((runTaskWrite (spawnTask ctx) reg k v).userMapOf ctx.sessionId).get? k
      = some v
    ∧ (apiEndpoint reg (Cookie.valid sid)).1 = sid
    ∧ Backend.load
        (Registry.flushUser (apiEndpoint reg (Cookie.valid sid)).2 b sid)
        (userScopeKey sid)
      = [("msg", Value.str "yes")] := by
  refine ⟨rfl, ?_, rfl, ?_⟩
  · show ((reg.setUser ctx.sessionId k v).userMapOf ctx.sessionId).get? k
      = some v
    rw [Registry.userMapOf_setUser_self]
    exact SMap.get?_set_self _ k v
  · show Backend.load (b.save (userScopeKey sid)
      ((reg.setUser sid "msg" (Value.str "yes")).userMapOf sid))
      (userScopeKey sid) = _
    rw [Backend.load_save_self, Registry.userMapOf_setUser_self, hempty]
    rfl

/-- Witness for C4: a concrete context, registry and backend. -/
theorem ambient_context_inherited_by_tasks_witness :
    ((runTaskWrite (spawnTask { sessionId := 7 }) Registry.startup
      "subtask" (Value.str "works")).userMapOf 7).get? "subtask"
      = some (Value.str "works")
    ∧ Backend.load
        (Registry.flushUser
          (apiEndpoint Registry.startup (Cookie.valid 5)).2 [] 5)
        (userScopeKey 5)
      = [("msg", Value.str "yes")] := by
  have h := ambient_context_inherited_by_tasks { sessionId := 7 }
    Registry.startup "subtask" (Value.str "works") 5 [] rfl
  exact ⟨h.2.1, h.2.2.2⟩

theorem runUserEvents_inc (scopeKey : String) (events : List UserEvent) :
    ∀ (s : UserSession) (c : Int),
      s.mapping.data.getD "count" (Value.num 0) = Value.num c →
      ∃ s', runUserEvents scopeKey s events = some s'
        ∧ s'.mapping.data.getD "count" (Value.num 0)
          = Value.num (c + countIncrements events) := by
  induction events with
  | nil =>
    intro s c h
    refine ⟨s, rfl, ?_⟩
    rw [h]
    norm_num [countIncrements]
  | cons e rest ih =>
    intro s c h
    cases e with
    | increment =>
      rw [runUserEvents]
      have hinc : incrementCount s.mapping
          = some (s.mapping.setItem "count" (Value.num (c + 1))) := by
        rw [incrementCount, h]
      rw [hinc]
      have hnew : (s.mapping.setItem "count" (Value.num (c + 1))).data.getD
          "count" (Value.num 0) = Value.num (c + 1) := by
        show ((s.mapping.data.set "count"
          (Value.num (c + 1))).get? "count").getD _ = _
        rw [SMap.get?_set_self]
        rfl
      obtain ⟨s', hrun, hval⟩ := ih
        { mapping := s.mapping.setItem "count" (Value.num (c + 1)),
          backend := s.backend } (c + 1) hnew
      refine ⟨s', hrun, ?_⟩
      rw [hval]
      congr 1
      rw [countIncrements]
      push_cast
      ring
    | flush =>
      rw [runUserEvents]
      obtain ⟨s', hrun, hval⟩ := ih
        { mapping := (flushDict s.mapping s.backend scopeKey).1,
          backend := (flushDict s.mapping s.backend scopeKey).2 } c h
      exact ⟨s', hrun, hval⟩

/-- C8: for every interleaving of counter-increment requests and serialized
full-snapshot flushes against one session, starting from an empty user
mapping, the run succeeds and the final counter value equals the number of
increments: no increment is lost. -/
theorem concurrent_increments_converge (events : List UserEvent)
    (b : Backend) (scopeKey : String) :
    ∃ s', runUserEvents scopeKey
        { mapping := PersistentDict.ofData SMap.empty, backend := b } events
        = some s'
      ∧ s'.mapping.data.getD "count" (Value.num 0)
        = Value.num (countIncrements events) := by
  obtain ⟨s', hrun, hval⟩ := runUserEvents_inc scopeKey events
    { mapping := PersistentDict.ofData SMap.empty, backend := b } 0 rfl
  refine ⟨s', hrun, ?_⟩
  rw [hval]
  norm_num

theorem FileStore.read?_write_self (fs : FileStore) (name text : String) :
    (fs.write name text).read? name = some text := by
  induction fs with
  | nil => simp [FileStore.write, FileStore.read?]
  | cons p rest ih =>
    obtain ⟨name', text'⟩ := p
    by_cases h : name' = name
    · simp [FileStore.write, FileStore.read?, h]
    · simp [FileStore.write, FileStore.read?, h, ih]

theorem jsonEscapeChar_plain (c : Char) (h : jsonPlainChar c = true) :
    jsonEscapeChar c = String.mk [c] := by
  rw [jsonPlainChar] at h
  simp only [Bool.and_eq_true, decide_eq_true_eq] at h
  rw [jsonEscapeChar, if_neg h.1.1, if_neg h.1.2,
    if_neg (Nat.not_lt.mpr h.2)]

theorem jsonEscapeList_plain (l : List Char)
    (h : l.all jsonPlainChar = true) : jsonEscapeList l = String.mk l := by
  induction l with
  | nil => rfl
  | cons ch rest ih =>
    simp only [List.all_cons, Bool.and_eq_true] at h
    rw [jsonEscapeList, jsonEscapeChar_plain ch h.1, ih h.2]
    rfl

theorem jsonEscape_plain (s : String)
    (h : s.data.all jsonPlainChar = true) : jsonEscape s = s := by
  rw [jsonEscape, jsonEscapeList_plain s.data h]

theorem jsonOfString_plain (s : String)
    (h : s.data.all jsonPlainChar = true) :
    jsonOfString s = "\"" ++ s ++ "\"" := by
  rw [jsonOfString, jsonEscape_plain s h]

/-- C9: a flushed user-scope record lives under the file name
`storage_user_<session-identifier>.json`, and its content is the JSON
serialization of the full mapping: for a mapping whose sole entry maps key k
to string value v (both free of characters the encoder escapes), the file
text is exactly the JSON object `\x7b"k": "v"\x7d`. -/
theorem user_record_file_layout (fs : FileStore) (sid : Nat) (k v : String)
    (hk : k.data.all jsonPlainChar = true)
    (hv : v.data.all jsonPlainChar = true) :
    (flushUserToFile fs sid [(k, Value.str v)]).read? (userScopeKey sid)
      = some ("\x7b\"" ++ k ++ "\": \"" ++ v ++ "\"\x7d")
    ∧ userScopeKey sid = "storage_user_" ++ toString sid ++ ".json" := by
  refine ⟨?_, rfl⟩
  rw [flushUserToFile, FileStore.read?_write_self]
  congr 1
  rw [jsonSerialize]
  rw [show jsonOfValue (Value.obj [(k, Value.str v)])
      = "\x7b" ++ jsonOfFields [(k, Value.str v)] ++ "\x7d" from by
    rw [jsonOfValue]]
  rw [show jsonOfFields [(k, Value.str v)]
      = jsonOfString k ++ ": " ++ jsonOfValue (Value.str v) from by
    rw [jsonOfFields]]
  rw [show jsonOfValue (Value.str v) = jsonOfString v from by
    rw [jsonOfValue]]
  rw [jsonOfString_plain k hk, jsonOfString_plain v hv]
  apply String.ext
  simp only [String.data_append, List.append_assoc]
  rfl

/-- Witness for C9: the record of `test_access_user_storage_from_fastapi`,
whose text is exactly the JSON object with "msg" mapped to "yes". -/
theorem user_record_file_layout_witness :
    (flushUserToFile [] 1 [("msg", Value.str "yes")]).read? (userScopeKey 1)
      = some "\x7b\"msg\": \"yes\"\x7d"
    ∧ userScopeKey 1 = "storage_user_1.json" := by
  have h := user_record_file_layout [] 1 "msg" "yes" (by decide) (by decide)
  exact ⟨h.1, h.2⟩

theorem get?_before_indexOf_ne {α : Type} [DecidableEq α] (l : List α) :
    ∀ (v : α) (j : Nat), j < l.indexOf v → l.get? j ≠ some v := by
  induction l with
  | nil =>
    intro v j _ hc
    exact Option.noConfusion hc
  | cons a rest ih =>
    intro v j h
    by_cases ha : a = v
    · subst ha
      rw [List.indexOf_cons_self] at h
      exact absurd h (Nat.not_lt_zero j)
    · rw [List.indexOf_cons_ne rest ha] at h
      cases j with
      | zero =>
        intro hc
        exact ha (Option.some.inj hc)
      | succ j' =>
        exact ih v j' (Nat.lt_of_succ_lt_succ h)

/-- C10: `_value_to_model_value` returns the index of the value's first
occurrence among the element's option values when the value is present and
`None` when it is absent (it never raises, being a total function); applying
`_msg_to_value` to the produced index yields back the original value. -/
theorem radio_value_model_round_trip {α : Type} [DecidableEq α]
    (r : Radio α) (v : α) :
    (v ∈ r.values →
      ∃ i, r.value_to_model_value v = some i
        ∧ r.msg_to_value i = some v
        ∧ ∀ j, j < i → r.msg_to_value j ≠ some v)
    ∧ (v ∉ r.values → r.value_to_model_value v = none) := by
  constructor
  · intro hmem
    refine ⟨r.values.indexOf v, ?_, ?_, ?_⟩
    · rw [Radio.value_to_model_value, if_pos hmem]
    · exact List.indexOf_get? hmem
    · intro j hj
      exact get?_before_indexOf_ne r.values v j hj
  · intro hmem
    rw [Radio.value_to_model_value, if_neg hmem]

/-- Witness for C10 at a concrete Radio element with options ["a", "b"]. -/
theorem radio_value_model_round_trip_witness :
    (∃ i, (Radio.mk ["a", "b"] : Radio String).value_to_model_value "b"
        = some i
      ∧ (Radio.mk ["a", "b"] : Radio String).msg_to_value i = some "b"
      ∧ ∀ j, j < i →
          (Radio.mk ["a", "b"] : Radio String).msg_to_value j ≠ some "b")
    ∧ (Radio.mk ["a", "b"] : Radio String).value_to_model_value "c"
      = none := by
  constructor
  · exact (radio_value_model_round_trip (Radio.mk ["a", "b"]) "b").1
      (by decide)
  · exact (radio_value_model_round_trip (Radio.mk ["a", "b"]) "c").2
      (by decide)

end NiceGui
